import Mathlib

/-!
# starknet.go: transaction submission and the account façade

A shallow embedding of the write endpoints of the RPC provider
(`rpc/write.go`) and of the account operations exercised by
`account/account_test.go`, with the properties of the specification stated and
settled over it.

* Part I embeds `rpc/write.go`.  The transport function `do`, the response
  types and the sentinel errors are declared in other files of the package;
  they enter as parameters.
* Part II models the account façade, the keystore, the hash and the signer.
* Part III holds the properties.
-/

/-! # Part I. The write endpoints (`rpc/write.go`) -/

namespace rpc

/-! ## Go values needed by `write.go` -/

/-- A Go `error` value.  `message` is what `Error()` returns; `payload` stands
for the rest of the value (dynamic type, fields, address), so that two errors
with the same message can still be different values. -/
structure GoError where
  message : String
  payload : Nat
  deriving DecidableEq, Repr

/-- `errors.New(text)`: an error whose message is `text`. -/
def errorsNew (text : String) : GoError := ⟨text, 0⟩

/-- `strings.HasPrefix` on the characters of two strings. -/
def hasPrefix : List Char → List Char → Bool
  | _, [] => true
  | [], _ :: _ => false
  | c :: s, d :: p => c == d && hasPrefix s p

/-- `strings.Index(s, substr) >= 0` on the characters of two strings: some
position of `s` starts with `substr`. -/
def containsChars : List Char → List Char → Bool
  | [], substr => hasPrefix [] substr
  | c :: s, substr => hasPrefix (c :: s) substr || containsChars s substr

/-- `strings.Contains(s, substr)`.  Go strings are taken as text; for a
pattern of ASCII characters, as the two patterns of `write.go` are, an
occurrence among the characters is an occurrence among the bytes. -/
def stringsContains (s substr : String) : Bool :=
  containsChars s.data substr.data

/-- What a call leaves behind outside its return values: the JSON-RPC methods
sent through `do`, oldest first, and the lines written by `fmt.Println`. -/
structure World where
  calls : List String
  stdout : List String
  deriving DecidableEq, Repr

/-- The receiver of the write endpoints; `c` is the RPC client handed to `do`. -/
structure Provider (Client : Type) where
  c : Client

/-- The two results of a Go function returning `(*Response, error)`; `none`
is `nil`. -/
abbrev Result (R : Type) := Option R × Option GoError

/-- The transport function `do(ctx, client, method, &output, params)`, declared
elsewhere in the package: it either fails with an error or fills `output` with
the decoded response. -/
abbrev Transport (Ctx Client P R : Type) := Ctx → Client → String → P → Except GoError R

/-- The two results of an endpoint follow the outcome `call` of its provider
call: the response is nil exactly when the error is not, the error is non-nil
exactly when the call failed, and after a successful call the response is the
decoded value. -/
def Result.followsCall {R : Type} (out : Result R) (call : Except GoError R) : Prop :=
  (out.1 = none ↔ out.2 ≠ none) ∧
  (out.2 ≠ none ↔ ∃ e, call = Except.error e) ∧
  (∀ r, call = Except.ok r → out = (some r, none))

/-- Record that `method` went through `do`. -/
def World.sent (w : World) (method : String) : World :=
  { w with calls := w.calls ++ [method] }

/-- `fmt.Println(operands...)`: the operands separated by spaces, then a
newline. -/
def World.println (w : World) (operands : List String) : World :=
  { w with stdout := w.stdout ++ [" ".intercalate operands ++ "\n"] }

/-! ## The write endpoints -/

/-- `Provider.AddInvokeTransaction` (write.go, lines 13-20). -/
def AddInvokeTransaction {Ctx Client P R : Type} (doCall : Transport Ctx Client P R)
    (provider : Provider Client) (ctx : Ctx) (broadcastedInvoke : P) (w : World) :
    Result R × World :=
  match doCall ctx provider.c "starknet_addInvokeTransaction" broadcastedInvoke with
  | .error err => ((none, some err), w.sent "starknet_addInvokeTransaction")
  | .ok output => ((some output, none), w.sent "starknet_addInvokeTransaction")

/-- `Provider.AddDeclareTransaction` (write.go, lines 23-32).
`ErrInvalidContractClass` is the package-level sentinel. -/
def AddDeclareTransaction {Ctx Client P R : Type} (ErrInvalidContractClass : GoError)
    (doCall : Transport Ctx Client P R)
    (provider : Provider Client) (ctx : Ctx) (declareTransaction : P) (w : World) :
    Result R × World :=
  match doCall ctx provider.c "starknet_addDeclareTransaction" declareTransaction with
  | .error err =>
    if stringsContains err.message "Invalid contract class" then
      ((none, some ErrInvalidContractClass), w.sent "starknet_addDeclareTransaction")
    else
      ((none, some err), w.sent "starknet_addDeclareTransaction")
  | .ok result => ((some result, none), w.sent "starknet_addDeclareTransaction")

/-- `Provider.AddDeployTransaction` (write.go, lines 39-42).  `zero` is the
zero value of the response type, what `var result` holds. -/
def AddDeployTransaction {Ctx Client P R : Type} (zero : R)
    (_provider : Provider Client) (_ctx : Ctx) (_deployTransaction : P) (w : World) :
    Result R × World :=
  ((some zero, some (errorsNew "AddDeployTransaction was removed, UDC should be used instead")), w)

/-- `Provider.AddDeployAccountTransaction` (write.go, lines 44-56).
`ErrClassHashNotFound` is the package-level sentinel and `sprint` is Go's
default formatting of the transaction, as `fmt.Println` prints it. -/
def AddDeployAccountTransaction {Ctx Client P R : Type} (ErrClassHashNotFound : GoError)
    (sprint : P → String) (doCall : Transport Ctx Client P R)
    (provider : Provider Client) (ctx : Ctx) (deployAccountTransaction : P) (w : World) :
    Result R × World :=
  let w1 := w.println ["++++++++++++", sprint deployAccountTransaction]
  match doCall ctx provider.c "starknet_addDeployAccountTransaction" deployAccountTransaction with
  | .error err =>
    let w2 := (w1.sent "starknet_addDeployAccountTransaction").println ["++++++++++++"]
    if stringsContains err.message "Class hash not found" then
      ((none, some ErrClassHashNotFound), w2)
    else
      ((none, some err), w2)
  | .ok result =>
    ((some result, none),
      (w1.sent "starknet_addDeployAccountTransaction").println ["++++++++++++-------------"])

end rpc

/-!
# Part II. The account façade (`account`, `starknetgo`)

Of these packages only the test file `account/account_test.go` is among the
sources: the bodies of `NewAccount`, `TransactionHash2`, `FmtCalldata2` and
`Sign`, the keystore and the curve are modelled from the specification, and
the literals of the tests are taken over as they stand.  The hash and the
signer are the network's (Pedersen hash and ECDSA over the STARK curve with
the nonce of RFC 6979); the models reproduce the transaction hashes, the
calldata array and the signatures the tests expect.
-/

namespace felt

/-- The prime of the base field, 2^251 + 17 * 2^192 + 1. -/
def Modulus : Nat := 0x800000000000011000000000000000000000000000000000000000000000001

/-- A field element, kept as its canonical residue in `[0, Modulus)`. -/
abbrev Felt := Nat

/-- The bytes of a Go string, `[]byte(s)`. -/
def goBytes (s : String) : List UInt8 := s.toUTF8.data.toList

/-- The unsigned integer a byte sequence spells, most significant byte first. -/
def bytesToInt (bs : List UInt8) : Nat := bs.foldl (fun acc b => acc * 256 + b.toNat) 0

/-- `new(felt.Felt).SetBytes(b)`: the big-endian integer of `b` as a field
element. -/
def SetBytes (bs : List UInt8) : Felt := bytesToInt bs % Modulus

end felt

namespace starknetgo

open felt rpc

/-- Modelled from the spec: the in-memory keystore of §4.5
(`starknetgo.NewMemKeystore`, whose source file is missing), a mapping from
identifier to private key. -/
structure MemKeystore where
  keys : List (String × Nat)
  deriving DecidableEq, Repr

/-- `NewMemKeystore()`: no key registered. -/
def NewMemKeystore : MemKeystore := ⟨[]⟩

/-- Modelled from the spec: `Put` of §4.5 (source file missing) registers the key
and overwrites any key the identifier had. -/
def MemKeystore.Put (ks : MemKeystore) (senderAddress : String) (k : Nat) : MemKeystore :=
  ⟨(senderAddress, k) :: ks.keys.filter (fun entry => entry.1 != senderAddress)⟩

/-- Modelled from the spec: the key lookup of §4.5 (source file missing); `none`
is the `KeyNotFound` condition. -/
def MemKeystore.Get (ks : MemKeystore) (senderAddress : String) : Option Nat :=
  (ks.keys.find? (fun entry => entry.1 == senderAddress)).map (fun entry => entry.2)

end starknetgo

namespace starknetgo

open felt

/-! ## The STARK curve

`y^2 = x^3 + x + Beta` over the field of `felt.Modulus`.  Points are kept in
Jacobian coordinates, so that a sum costs no field inversion. -/

/-- `strict n f` is `f n`.  The case split makes an evaluator compute `n`
before `f` runs, the order in which Go evaluates an argument before a call. -/
def strict {α : Type} (n : Nat) (f : Nat → α) : α :=
  match n with
  | 0 => f 0
  | m + 1 => f (m + 1)

/-- The constant term of the curve equation. -/
def Beta : Nat := 0x6f21413efbe40de150e596d72f7a8c5609ad26c15c915c1f4cdfcb99cee9e89

/-- The order of the curve's group, a prime. -/
def Order : Nat := 0x800000000000010ffffffffffffffffb781126dcae7b2321e66a241adc64d2f

/-- Square-and-multiply; `fuel` bounds the bits of `e`. -/
def powModAux : Nat → Nat → Nat → Nat → Nat → Nat
  | 0, _, _, _, r => r
  | fuel + 1, b, e, m, r =>
    if e = 0 then r
    else
      strict (if e % 2 = 1 then r * b % m else r) fun r1 =>
        strict (b * b % m) fun b1 => powModAux fuel b1 (e / 2) m r1

/-- `b ^ e mod m`. -/
def powMod (b e m : Nat) : Nat := powModAux (e + 1) (b % m) e m (1 % m)

/-- The inverse of `a` modulo the prime `m`, as `a ^ (m - 2)`. -/
def invMod (a m : Nat) : Nat := powMod a (m - 2) m

/-- `a - b` in the base field. -/
def subP (a b : Nat) : Nat := (a + (Modulus - b % Modulus)) % Modulus

/-- A point in Jacobian coordinates: `(X, Y, Z)` stands for the affine point
`(X / Z^2, Y / Z^3)`, and `Z = 0` for the point at infinity. -/
structure JPoint where
  X : Nat
  Y : Nat
  Z : Nat
  deriving DecidableEq, Repr

/-- The point at infinity. -/
def infinity : JPoint := ⟨1, 1, 0⟩

/-- Evaluate the three coordinates, then go on. -/
def strictPoint {α : Type} (p : JPoint) (f : JPoint → α) : α :=
  strict p.X fun x => strict p.Y fun y => strict p.Z fun z => f ⟨x, y, z⟩

/-- Twice a point (curve coefficient `a = 1`). -/
def jDouble (p : JPoint) : JPoint :=
  if p.Z = 0 ∨ p.Y = 0 then infinity
  else
    let yy := p.Y * p.Y % Modulus
    let s := 4 * p.X * yy % Modulus
    let zz := p.Z * p.Z % Modulus
    let m := (3 * p.X * p.X + zz * zz) % Modulus
    let x := subP (m * m) (2 * s)
    ⟨x, subP (m * subP s x) (8 * yy * yy), 2 * p.Y * p.Z % Modulus⟩

/-- The sum of two points. -/
def jAdd (p q : JPoint) : JPoint :=
  if p.Z = 0 then q
  else if q.Z = 0 then p
  else
    let z1z1 := p.Z * p.Z % Modulus
    let z2z2 := q.Z * q.Z % Modulus
    let u1 := p.X * z2z2 % Modulus
    let u2 := q.X * z1z1 % Modulus
    let s1 := p.Y * q.Z % Modulus * z2z2 % Modulus
    let s2 := q.Y * p.Z % Modulus * z1z1 % Modulus
    if u1 = u2 then
      if s1 = s2 then jDouble p else infinity
    else
      let h := subP u2 u1
      let r := subP s2 s1
      let hh := h * h % Modulus
      let hhh := h * hh % Modulus
      let v := u1 * hh % Modulus
      let x := subP (r * r) (hhh + 2 * v)
      ⟨x, subP (r * subP v x) (s1 * hhh), h * p.Z % Modulus * q.Z % Modulus⟩

/-- `acc + k * q`, one bit of `k` at a time from the least significant: a set
bit adds the current multiple of `q`, which then doubles. -/
def mulAddAux : Nat → Nat → JPoint → JPoint → JPoint
  | 0, _, _, acc => acc
  | fuel + 1, k, q, acc =>
    if k = 0 then acc
    else
      strictPoint (if k % 2 = 1 then jAdd acc q else acc) fun acc1 =>
        strictPoint (jDouble q) fun q1 => mulAddAux fuel (k / 2) q1 acc1

/-- `acc + k * q`. -/
def mulAdd (acc : JPoint) (k : Nat) (q : JPoint) : JPoint := mulAddAux (k + 1) k q acc

/-- The affine coordinates of a point, `none` for the point at infinity. -/
def affine (p : JPoint) : Option (Nat × Nat) :=
  if p.Z = 0 then none
  else
    let zi := invMod p.Z Modulus
    let zi2 := zi * zi % Modulus
    some (p.X * zi2 % Modulus, p.Y * zi2 % Modulus * zi % Modulus)

/-- Does the affine point `(x, y)` satisfy the curve equation? -/
def onCurve (p : JPoint) : Bool :=
  p.Z == 1 && (p.Y * p.Y) % Modulus == (p.X * p.X * p.X + p.X + Beta) % Modulus

/-- The generator of the curve's group. -/
def EcGen : JPoint :=
  ⟨0x1ef15c18599971b7beced415a40f0c7deacfd9b0d1819e03d723d8bc943cfca,
   0x5668060aa49730b7be4801df46ec62de53ecd11abe43a32873000c36e8dc1f, 1⟩

/-- The shift point of the Pedersen hash. -/
def PedersenShift : JPoint :=
  ⟨0x49ee3eba8c1600700ee1b87eb599f16716b0b1022947733551fde4050ca6804,
   0x3ca0cfe4b3bc6ddf346d49d06ea0ed34e621062c0e056c1d0405d266e10268a, 1⟩

/-- The four base points of the Pedersen hash: low 248 bits and high 4 bits of
the first operand, then of the second. -/
def PedersenP0 : JPoint :=
  ⟨0x234287dcbaffe7f969c748655fca9e58fa8120b6d56eb0c1080d17957ebe47b,
   0x3b056f100f96fb21e889527d41f4e39940135dd7a6c94cc6ed0268ee89e5615, 1⟩

def PedersenP1 : JPoint :=
  ⟨0x4fa56f376c83db33f9dab2656558f3399099ec1de5e3018b7a6932dba8aa378,
   0x3fa0984c931c9e38113e0c0e47e4401562761f92a7a23b45168f4e80ff5b54d, 1⟩

def PedersenP2 : JPoint :=
  ⟨0x4ba4cc166be8dec764910f75b45f74b40c690c74709e90f3aa372f0bd2d6997,
   0x40301cf5c1751f4b971e46c4ede85fcac5c59a5ce5ae7c48151f27b24b219c, 1⟩

def PedersenP3 : JPoint :=
  ⟨0x54302dcb0e6cc1c6e44cca8f61a63bb2ca65048d53fb325d36ff12c49a58202,
   0x1b77b3e37d13504b348046268d8ae25ce98ad783c25561a879dcc77e99c2426, 1⟩

/-- Modelled from the spec: the compression of pairs of §4.2, whose source file
is missing.  It is the network's Pedersen hash: the x coordinate of
`shift + a_low * P0 + a_high * P1 + b_low * P2 + b_high * P3`, with `low` the
low 248 bits and `high` the bits above. -/
def PedersenHash (a b : Felt) : Felt :=
  match affine (mulAdd (mulAdd (mulAdd (mulAdd PedersenShift (a % 2 ^ 248) PedersenP0)
      (a / 2 ^ 248) PedersenP1) (b % 2 ^ 248) PedersenP2) (b / 2 ^ 248) PedersenP3) with
  | some (x, _) => x
  | none => 0

/-- The accumulation of §4.2 over a sequence, left to right from zero. -/
def HashElements : Felt → List Felt → Felt
  | acc, [] => acc
  | acc, e :: rest => HashElements (PedersenHash acc e) rest

/-- Modelled from the spec: `Hash` of §4.2 (source file missing): the elements are
accumulated left to right and the last step folds in their count. -/
def ComputeHashOnElements (elems : List Felt) : Felt :=
  HashElements 0 (elems ++ [elems.length])

/-! ## SHA-256 and HMAC (Go's `crypto/sha256`, `crypto/hmac`) -/

/-- A byte string: its length and the integer its bytes spell, big-endian. -/
structure Bytes where
  len : Nat
  val : Nat
  deriving DecidableEq, Repr

/-- `append(a, b...)`. -/
def Bytes.append (a b : Bytes) : Bytes := ⟨a.len + b.len, (a.val <<< (8 * b.len)) ||| b.val⟩

/-- `bytes.Repeat([]byte{b}, n)`. -/
def Bytes.repeat (b n : Nat) : Bytes := ⟨n, b * ((256 ^ n - 1) / 255)⟩

/-- Every byte xored with `b`. -/
def Bytes.xorByte (a : Bytes) (b : Nat) : Bytes := ⟨a.len, a.val ^^^ (Bytes.repeat b a.len).val⟩

/-- The round constants of SHA-256. -/
def K256 : List Nat := [
  0x428a2f98, 0x71374491, 0xb5c0fbcf, 0xe9b5dba5, 0x3956c25b, 0x59f111f1, 0x923f82a4, 0xab1c5ed5,
  0xd807aa98, 0x12835b01, 0x243185be, 0x550c7dc3, 0x72be5d74, 0x80deb1fe, 0x9bdc06a7, 0xc19bf174,
  0xe49b69c1, 0xefbe4786, 0x0fc19dc6, 0x240ca1cc, 0x2de92c6f, 0x4a7484aa, 0x5cb0a9dc, 0x76f988da,
  0x983e5152, 0xa831c66d, 0xb00327c8, 0xbf597fc7, 0xc6e00bf3, 0xd5a79147, 0x06ca6351, 0x14292967,
  0x27b70a85, 0x2e1b2138, 0x4d2c6dfc, 0x53380d13, 0x650a7354, 0x766a0abb, 0x81c2c92e, 0x92722c85,
  0xa2bfe8a1, 0xa81a664b, 0xc24b8b70, 0xc76c51a3, 0xd192e819, 0xd6990624, 0xf40e3585, 0x106aa070,
  0x19a4c116, 0x1e376c08, 0x2748774c, 0x34b0bcb5, 0x391c0cb3, 0x4ed8aa4a, 0x5b9cca4f, 0x682e6ff3,
  0x748f82ee, 0x78a5636f, 0x84c87814, 0x8cc70208, 0x90befffa, 0xa4506ceb, 0xbef9a3f7, 0xc67178f2]

/-- Rotation of a 32-bit word to the right. -/
def rotr (x n : Nat) : Nat := ((x >>> n) ||| (x <<< (32 - n))) % 2 ^ 32

/-- The eight working words of SHA-256. -/
structure SHAState where
  a : Nat
  b : Nat
  c : Nat
  d : Nat
  e : Nat
  f : Nat
  g : Nat
  h : Nat
  deriving DecidableEq, Repr

/-- Evaluate the eight words, then go on. -/
def strictState {α : Type} (s : SHAState) (k : SHAState → α) : α :=
  strict s.a fun a => strict s.b fun b => strict s.c fun c => strict s.d fun d =>
  strict s.e fun e => strict s.f fun f => strict s.g fun g => strict s.h fun h =>
    k ⟨a, b, c, d, e, f, g, h⟩

/-- Word `j` (0 to 15) of a sixteen-word window kept as one 512-bit integer. -/
def wordAt (win j : Nat) : Nat := (win >>> (32 * (15 - j))) % 2 ^ 32

/-- One round on the working words, with round constant `k` and message
schedule word `w`. -/
def shaRound (s : SHAState) (k w : Nat) : SHAState :=
  let S1 := rotr s.e 6 ^^^ rotr s.e 11 ^^^ rotr s.e 25
  let ch := (s.e &&& s.f) ^^^ ((s.e ^^^ 0xffffffff) &&& s.g)
  let t1 := (s.h + S1 + ch + k + w) % 2 ^ 32
  let S0 := rotr s.a 2 ^^^ rotr s.a 13 ^^^ rotr s.a 22
  let maj := (s.a &&& s.b) ^^^ (s.a &&& s.c) ^^^ (s.b &&& s.c)
  let t2 := (S0 + maj) % 2 ^ 32
  ⟨(t1 + t2) % 2 ^ 32, s.a, s.b, s.c, (s.d + t1) % 2 ^ 32, s.e, s.f, s.g⟩

/-- The schedule word that follows a window of sixteen. -/
def nextWord (win : Nat) : Nat :=
  let w15 := wordAt win 1
  let w2 := wordAt win 14
  let s0 := rotr w15 7 ^^^ rotr w15 18 ^^^ (w15 >>> 3)
  let s1 := rotr w2 17 ^^^ rotr w2 19 ^^^ (w2 >>> 10)
  (wordAt win 0 + s0 + wordAt win 9 + s1) % 2 ^ 32

/-- The rounds, one per constant: a round consumes the first word of the
window, and the window slides by one schedule word. -/
def shaRounds : List Nat → SHAState → Nat → SHAState
  | [], s, _ => s
  | k :: ks, s, win =>
    strictState (shaRound s k (wordAt win 0)) fun s1 =>
      strict (((win % 2 ^ 480) <<< 32) ||| nextWord win) fun win1 => shaRounds ks s1 win1

/-- The compression function on one 64-byte block. -/
def shaCompress (hs : SHAState) (block : Nat) : SHAState :=
  let s := shaRounds K256 hs block
  ⟨(hs.a + s.a) % 2 ^ 32, (hs.b + s.b) % 2 ^ 32, (hs.c + s.c) % 2 ^ 32, (hs.d + s.d) % 2 ^ 32,
   (hs.e + s.e) % 2 ^ 32, (hs.f + s.f) % 2 ^ 32, (hs.g + s.g) % 2 ^ 32, (hs.h + s.h) % 2 ^ 32⟩

/-- The padded message: a byte 0x80, zeros up to 56 modulo 64, the bit length
in eight bytes. -/
def shaPad (msg : Bytes) : Bytes :=
  ((msg.append ⟨1, 0x80⟩).append ⟨(119 - msg.len % 64) % 64, 0⟩).append ⟨8, msg.len * 8⟩

/-- The blocks of the padded message in order; `nb` blocks are still to come. -/
def shaBlocks : Nat → Nat → SHAState → SHAState
  | 0, _, s => s
  | nb + 1, padded, s =>
    strictState (shaCompress s ((padded >>> (512 * nb)) % 2 ^ 512)) fun s1 =>
      shaBlocks nb padded s1

/-- `sha256.Sum256`. -/
def sha256 (msg : Bytes) : Bytes :=
  let padded := shaPad msg
  let s := shaBlocks (padded.len / 64) padded.val
    ⟨0x6a09e667, 0xbb67ae85, 0x3c6ef372, 0xa54ff53a, 0x510e527f, 0x9b05688c, 0x1f83d9ab,
     0x5be0cd19⟩
  strict ((((((((s.a <<< 32 ||| s.b) <<< 32 ||| s.c) <<< 32 ||| s.d) <<< 32 ||| s.e) <<< 32
    ||| s.f) <<< 32 ||| s.g) <<< 32 ||| s.h)) fun d => ⟨32, d⟩

/-- HMAC-SHA256 of `msg` under `key`. -/
def hmac (key msg : Bytes) : Bytes :=
  let k0 := if key.len > 64 then sha256 key else key
  let k : Bytes := ⟨64, k0.val <<< (8 * (64 - k0.len))⟩
  sha256 ((k.xorByte 0x5c).append (sha256 ((k.xorByte 0x36).append msg)))

/-! ## The signer -/

/-- The bits of `n`, counted by halving. -/
def bitLenAux : Nat → Nat → Nat → Nat
  | 0, _, acc => acc
  | fuel + 1, n, acc => if n = 0 then acc else bitLenAux fuel (n / 2) (acc + 1)

/-- `big.Int.BitLen()`. -/
def bitLen (n : Nat) : Nat := bitLenAux n n 0

/-- `big.Int.Bytes()`: the shortest big-endian byte string of `n`. -/
def intBytes (n : Nat) : Bytes := ⟨(bitLen n + 7) / 8, n⟩

/-- `int2octets` of RFC 6979, 2.3.3: `v` on exactly `rolen` bytes. -/
def int2octets (v rolen : Nat) : Bytes := ⟨rolen, v % 256 ^ rolen⟩

/-- `bits2int` of RFC 6979, 2.3.2, on the bytes of `inp`. -/
def bits2int (inp qlen : Nat) : Nat :=
  let blen := (intBytes inp).len * 8
  if blen > qlen then inp >>> (blen - qlen) else inp

/-- `bits2octets` of RFC 6979, 2.3.4. -/
def bits2octets (inp q qlen rolen : Nat) : Bytes :=
  let z1 := bits2int inp qlen
  if z1 < q then int2octets z1 rolen else int2octets (z1 - q) rolen

/-- Step h of RFC 6979, 3.2: draw candidates until one lies in `(0, Order)`;
`none` when `fuel` draws did not give one. -/
def secretLoop : Nat → Bytes → Bytes → Option Nat
  | 0, _, _ => none
  | fuel + 1, k, v =>
    let v1 := hmac k v
    let secret := bits2int v1.val 252
    if 0 < secret ∧ secret < Order then some secret
    else
      let k1 := hmac k (v1.append ⟨1, 0x00⟩)
      secretLoop fuel k1 (hmac k1 v1)

/-- Modelled from the spec: the deterministic nonce derivation of §4.6 (source
file missing): RFC 6979 with HMAC-SHA256 from the private key, the message hash
(shifted to a whole number of bytes when it has 249 to 252 bits) and the retry
counter `seed`. -/
def GenerateSecret (fuel msgHash privKey seed : Nat) : Option Nat :=
  let bl := bitLen msgHash
  let shifted := if 1 ≤ bl % 8 ∧ bl % 8 ≤ 4 ∧ 248 ≤ bl then msgHash * 16 else msgHash
  let by0 := (int2octets privKey 32).append (bits2octets shifted Order 252 32)
  let by1 := if 0 < seed then by0.append (intBytes seed) else by0
  let v0 := Bytes.repeat 0x01 32
  let k0 := Bytes.repeat 0x00 32
  let k1 := hmac k0 ((v0.append ⟨1, 0x00⟩).append by1)
  let v1 := hmac k1 v0
  let k2 := hmac k1 ((v1.append ⟨1, 0x01⟩).append by1)
  let v2 := hmac k2 v1
  secretLoop fuel k2 v2

/-- The signing attempts: nonce `k`, `r` the x coordinate of `k * G`,
`s = (msgHash + r * privKey) / k` modulo the order; an attempt whose `r` or
`k / (msgHash + r * privKey)` is zero or has more than 251 bits is dropped and
the next one runs with the next `seed`.  `none` when `fuel` attempts failed. -/
def signLoop : Nat → Nat → Nat → Nat → Option (Nat × Nat)
  | 0, _, _, _ => none
  | fuel + 1, msgHash, privKey, seed =>
    match GenerateSecret (fuel + 1) msgHash privKey seed with
    | none => none
    | some k =>
      match affine (mulAdd infinity k EcGen) with
      | none => signLoop fuel msgHash privKey (seed + 1)
      | some (r, _) =>
        if r = 0 ∨ 2 ^ 251 ≤ r then signLoop fuel msgHash privKey (seed + 1)
        else
          let agg := r * privKey + msgHash
          if agg % Order = 0 then signLoop fuel msgHash privKey (seed + 1)
          else
            let w := k * invMod agg Order % Order
            if w = 0 ∨ 2 ^ 251 ≤ w then signLoop fuel msgHash privKey (seed + 1)
            else some (r, invMod w Order)

/-- The errors of §7 the signer and the keystore report. -/
def ErrInvalidHashRange : rpc.GoError := rpc.errorsNew "InvalidHashRange"

def ErrInvalidKeyRange : rpc.GoError := rpc.errorsNew "InvalidKeyRange"

def ErrKeyNotFound : rpc.GoError := rpc.errorsNew "KeyNotFound"

def ErrNoSignature : rpc.GoError := rpc.errorsNew "no signature within the attempts"

/-- Modelled from the spec: `Sign(message_hash, private_key)` of §4.6 (source
file missing): ECDSA over the STARK curve with the deterministic nonce above.
The hash must be a non-zero value of at most 251 bits and the key must lie in
`(0, Order)`.  The scheme retries on out-of-range values; the model gives up
after 64 attempts. -/
def CurveSign (msgHash privKey : Nat) : Except rpc.GoError (Nat × Nat) :=
  if msgHash = 0 ∨ 2 ^ 251 ≤ msgHash then .error ErrInvalidHashRange
  else if privKey = 0 ∨ Order ≤ privKey then .error ErrInvalidKeyRange
  else
    match signLoop 64 msgHash privKey 0 with
    | some rs => .ok rs
    | none => .error ErrNoSignature

/-- A Go `context.Context`, as far as a callee can observe it. -/
structure Context where
  cancelled : Bool
  deadline : Option Nat
  deriving DecidableEq, Repr

/-- `context.Background()`. -/
def Context.Background : Context := ⟨false, none⟩

/-- Modelled from the spec: `Sign(identifier, message_hash)` of the keystore,
§4.5 (source file missing): `KeyNotFound` when no key is registered for the
identifier, the signer's result otherwise.  §5 gives no operation of the core
a cancellation contract, so the context is not consulted. -/
def MemKeystore.Sign (ks : MemKeystore) (_ctx : Context) (id : String) (msgHash : Nat) :
    Except rpc.GoError (Nat × Nat) :=
  match ks.Get id with
  | none => .error ErrKeyNotFound
  | some k => CurveSign msgHash k

end starknetgo

namespace account

open felt rpc starknetgo

/-- The provider as the account sees it: the outcome of `ChainID(ctx)`.  In the
tests it is the mock's `Return(chainID, nil)`. -/
structure RpcProvider where
  ChainID : Except GoError String

/-- `rpc.FunctionCall` as the tests build it. -/
structure FunctionCall where
  ContractAddress : Felt
  EntryPointSelector : Felt
  Calldata : List Felt
  deriving DecidableEq, Repr

/-- The account of §3: provider, version, address, key identifier, keystore and
the resolved chain id. -/
structure Account where
  provider : RpcProvider
  version : Nat
  AccountAddress : Felt
  publicKey : String
  ks : MemKeystore
  ChainId : Felt

/-- Modelled from the spec: `account.NewAccount`, whose source file is missing.  It asks
the provider for the chain identifier, hands a provider error back (§4.7), and
otherwise stores the identifier's bytes as a field element (§6, §8). -/
def NewAccount (provider : RpcProvider) (version : Nat) (accountAddress : Felt)
    (publicKey : String) (keystore : MemKeystore) : Except GoError Account :=
  match provider.ChainID with
  | .error err => .error err
  | .ok chainID =>
    .ok { provider := provider, version := version, AccountAddress := accountAddress,
          publicKey := publicKey, ks := keystore, ChainId := SetBytes (goBytes chainID) }

/-! ## Transaction hash and signature -/

/-- The tag of an invoke transaction. -/
def TRANSACTION_PREFIX : String := "invoke"

/-- Modelled from the spec: `account.TransactionHash2`, whose source file is missing.  The
composition of §4.4 for an invoke transaction: the hash of the prefix, the
account's version, the sender address, the zero placeholder, the hash of the
calldata, the max fee, the account's chain id and the nonce. -/
def TransactionHash2 (account : Account) (callData : List Felt)
    (nonce maxFee accountAddress : Felt) : Except GoError Felt :=
  let calldataHash := ComputeHashOnElements callData
  .ok (ComputeHashOnElements
    [SetBytes (goBytes TRANSACTION_PREFIX), account.version, accountAddress, 0,
     calldataHash, maxFee, account.ChainId, nonce])

/-- Modelled from the spec: `account.Sign`, whose source file is missing.  The keystore
signs the message hash with the key registered under the account's identifier
(§4.5, §4.7); the result is the two-element signature.  The account comes back
as it was: signing writes to nothing (§3, lifecycle). -/
def Account.Sign (account : Account) (ctx : Context) (msg : Felt) :
    Except GoError (List Felt) × Account :=
  match account.ks.Sign ctx account.publicKey msg with
  | .error err => (.error err, account)
  | .ok (r, s) => (.ok [r, s], account)

/-- A call made before a `Sign`: an earlier `Sign` on the account, or a `Put`
on the keystore the account holds. -/
inductive AccountCall where
  | sign (ctx : Context) (msg : Felt)
  | put (senderAddress : String) (k : Nat)

/-- The account after one such call. -/
def Account.afterCall (account : Account) : AccountCall → Account
  | .sign ctx msg => (account.Sign ctx msg).2
  | .put senderAddress k => { account with ks := account.ks.Put senderAddress k }

/-- The account after a sequence of calls, oldest first. -/
def Account.afterCalls (account : Account) (calls : List AccountCall) : Account :=
  calls.foldl Account.afterCall account

/-- `felt.String()`: lower-case hexadecimal after "0x". -/
def feltString (x : Felt) : String := "0x" ++ String.mk (Nat.toDigits 16 x)

/-- The account of `TestTransactionHash`, "Transaction hash mock"
(account_test.go, lines 54-64): the mock provider answers "SN_GOERLI". -/
def TestTransactionHash_account : Except GoError Account :=
  NewAccount ⟨.ok "SN_GOERLI"⟩ 1
    0x043784df59268c02b716e20bf77797bd96c68c2f100b2a634e448c35e3ad363e
    (feltString 0x043784df59268c02b716e20bf77797bd96c68c2f100b2a634e448c35e3ad363e)
    (NewMemKeystore.Put
      (feltString 0x043784df59268c02b716e20bf77797bd96c68c2f100b2a634e448c35e3ad363e)
      0x043b7fe9d91942c98cd5fd37579bd99ec74f879c4c79d886633eecae9dad35fa)

/-- The calldata of that test (account_test.go, lines 66-78). -/
def TestTransactionHash_calldata : List Felt :=
  [0x1,
   0x049d36570d4e46f48e99674bd3fcc84644ddd6b96f7c741b1562b82f9e004dc7,
   0x83afd3f4caedc6eebf44246fe54e38c95e3179a5ec9ea81740eca5b482d12e,
   0x0,
   0x3,
   0x3,
   0x049d36570d4e46f48e99674bd3fcc84644ddd6b96f7c741b1562b82f9e004dc7,
   0x1,
   0x0]

/-- The account of `TestSign`, "Sign testnet - mock" (account_test.go, lines
224-234). -/
def TestSign_account : Except GoError Account :=
  NewAccount ⟨.ok "SN_GOERLI"⟩ 1
    0x476466998f22e0b0177ddc76afcf8e3b5d30164f3eb33031aae7a9cb63c831
    (feltString 0x476466998f22e0b0177ddc76afcf8e3b5d30164f3eb33031aae7a9cb63c831)
    (NewMemKeystore.Put
      (feltString 0x476466998f22e0b0177ddc76afcf8e3b5d30164f3eb33031aae7a9cb63c831)
      0x15d0b81e6140f4cce02b47609879a723f9f5b7b9f3ffca346018c73fe81847e)

/-- What `NewAccount` returns for `TestSign_account`. -/
def TestSign_resolved : Account where
  provider := ⟨.ok "SN_GOERLI"⟩
  version := 1
  AccountAddress := 0x476466998f22e0b0177ddc76afcf8e3b5d30164f3eb33031aae7a9cb63c831
  publicKey := feltString 0x476466998f22e0b0177ddc76afcf8e3b5d30164f3eb33031aae7a9cb63c831
  ks := NewMemKeystore.Put
    (feltString 0x476466998f22e0b0177ddc76afcf8e3b5d30164f3eb33031aae7a9cb63c831)
    0x15d0b81e6140f4cce02b47609879a723f9f5b7b9f3ffca346018c73fe81847e
  ChainId := SetBytes (goBytes "SN_GOERLI")

/-- What `NewAccount` returns for `TestTransactionHash_account`. -/
def TestTransactionHash_resolved : Account where
  provider := ⟨.ok "SN_GOERLI"⟩
  version := 1
  AccountAddress := 0x043784df59268c02b716e20bf77797bd96c68c2f100b2a634e448c35e3ad363e
  publicKey := feltString 0x043784df59268c02b716e20bf77797bd96c68c2f100b2a634e448c35e3ad363e
  ks := NewMemKeystore.Put
    (feltString 0x043784df59268c02b716e20bf77797bd96c68c2f100b2a634e448c35e3ad363e)
    0x043b7fe9d91942c98cd5fd37579bd99ec74f879c4c79d886633eecae9dad35fa
  ChainId := SetBytes (goBytes "SN_GOERLI")

/-! ## Calldata layout -/

/-- The per-call entries of §4.3, `(contract_address, selector,
cumulative_data_offset, data_length)` for each call in order; `offset` is the
number of data elements of the calls before. -/
def callEntries (offset : Nat) : List FunctionCall → List Felt
  | [] => []
  | tx :: rest =>
    [tx.ContractAddress, tx.EntryPointSelector, offset, tx.Calldata.length]
      ++ callEntries (offset + tx.Calldata.length) rest

/-- The layout as §4.3 words it, `FormatCalldata`: the number of calls, the
per-call entries, the total data length, then every call's calldata in call
order.  It is the array the specification announces, which `FmtCalldata2` is
compared with. -/
def FormatCalldata (fnCalls : List FunctionCall) : List Felt :=
  [fnCalls.length] ++ callEntries 0 fnCalls
    ++ [(fnCalls.map (fun tx => tx.Calldata.length)).sum]
    ++ (fnCalls.map (fun tx => tx.Calldata)).flatten

/-- The pass of `FmtCalldata2` over the calls.  `callData` holds the number of
calls and the entries written so far, `callArray` the data gathered so far. -/
def fmtCalls : List FunctionCall → List Felt → List Felt → List Felt × List Felt
  | [], callData, callArray => (callData, callArray)
  | tx :: rest, callData, callArray =>
    fmtCalls rest
      (callData ++ [tx.ContractAddress, tx.EntryPointSelector, callArray.length,
        tx.Calldata.length + 1])
      (callArray ++ (tx.Calldata ++ [0]))

/-- Modelled from the spec: the body of `account.FmtCalldata2`, whose source
file is missing.  The encoding of §4.3, built in one pass over the calls, with
the one departure `TestFmtCallData` requires of it: the data of a call is its
calldata followed by one zero element, so that the length field of a call
with two calldata elements is 3.  Offsets and the total count these data, as
§4.3 has them. -/
def FmtCalldata2 (fnCalls : List FunctionCall) : List Felt :=
  let out := fmtCalls fnCalls [fnCalls.length] []
  out.1 ++ [out.2.length] ++ out.2

/-- The call of `TestFmtCallData` (account_test.go, lines 151-158).  The
selector of "transfer" is written out as the test's expected array has it. -/
def TestFmtCallData_fnCall : FunctionCall where
  ContractAddress := 0x049d36570d4e46f48e99674bd3fcc84644ddd6b96f7c741b1562b82f9e004dc7
  EntryPointSelector := 0x83afd3f4caedc6eebf44246fe54e38c95e3179a5ec9ea81740eca5b482d12e
  Calldata := [0x049d36570d4e46f48e99674bd3fcc84644ddd6b96f7c741b1562b82f9e004dc7, 0x1]

/-- The array `TestFmtCallData` requires `FmtCalldata2` to return for that call
(account_test.go, lines 159-169). -/
def TestFmtCallData_expectedCallData : List Felt :=
  [0x1,
   0x49d36570d4e46f48e99674bd3fcc84644ddd6b96f7c741b1562b82f9e004dc7,
   0x83afd3f4caedc6eebf44246fe54e38c95e3179a5ec9ea81740eca5b482d12e,
   0x0,
   0x3,
   0x3,
   0x49d36570d4e46f48e99674bd3fcc84644ddd6b96f7c741b1562b82f9e004dc7,
   0x1,
   0x0]

end account

/-! # Part III. Properties -/

namespace rpc

/-! ## Substring test -/

theorem hasPrefix_iff (s p : List Char) : hasPrefix s p = true ↔ ∃ post, s = p ++ post := by
  induction p generalizing s with
  | nil => simp [hasPrefix]
  | cons d p ih =>
    cases s with
    | nil => simp [hasPrefix]
    | cons c s =>
      simp only [hasPrefix, Bool.and_eq_true, beq_iff_eq, ih, List.cons_append, List.cons.injEq]
      constructor
      · rintro ⟨rfl, post, rfl⟩
        exact ⟨post, rfl, rfl⟩
      · rintro ⟨post, rfl, rfl⟩
        exact ⟨rfl, post, rfl⟩

theorem containsChars_iff (s p : List Char) :
    containsChars s p = true ↔ ∃ pre post, s = pre ++ p ++ post := by
  induction s with
  | nil =>
    simp only [containsChars, hasPrefix_iff]
    constructor
    · rintro ⟨post, h⟩
      exact ⟨[], post, by simpa using h⟩
    · rintro ⟨pre, post, h⟩
      have h1 : pre = [] ∧ p = [] ∧ post = [] := by
        simpa [List.append_eq_nil, and_assoc] using h.symm
      exact ⟨[], by simp [h1.2.1]⟩
  | cons c s ih =>
    simp only [containsChars, Bool.or_eq_true, hasPrefix_iff, ih]
    constructor
    · rintro (⟨post, h⟩ | ⟨pre, post, h⟩)
      · exact ⟨[], post, by simpa using h⟩
      · exact ⟨c :: pre, post, by simp [h]⟩
    · rintro ⟨pre, post, h⟩
      cases pre with
      | nil => exact Or.inl ⟨post, by simpa using h⟩
      | cons a pre =>
        simp only [List.cons_append, List.cons.injEq] at h
        exact Or.inr ⟨pre, post, h.2⟩

/-- `strings.Contains s p` holds exactly when `p` occurs somewhere inside `s`,
character for character. -/
theorem stringsContains_iff (s p : String) :
    stringsContains s p = true ↔ ∃ pre post : String, s = pre ++ p ++ post := by
  unfold stringsContains
  rw [containsChars_iff]
  constructor
  · rintro ⟨pre, post, h⟩
    refine ⟨⟨pre⟩, ⟨post⟩, ?_⟩
    apply String.ext
    simpa using h
  · rintro ⟨pre, post, h⟩
    exact ⟨pre.data, post.data, by simp [h]⟩

/-! ## Error reclassification of the write endpoints -/

/-- C7: when the provider call behind `AddDeclareTransaction` fails with `e`,
the response is nil; the error is the sentinel `ErrInvalidContractClass` when
"Invalid contract class" occurs anywhere inside the message of `e` (same case),
and `e` itself, unmodified, in every other case.  The sentinel comes back
exactly when the message matches or `e` already is the sentinel; for a sentinel
whose own message is of the category, exactly when the message matches. -/
theorem AddDeclareTransaction_failure {Ctx Client P R : Type}
    (ErrInvalidContractClass : GoError) (doCall : Transport Ctx Client P R)
    (provider : Provider Client) (ctx : Ctx) (declareTransaction : P) (w : World)
    (e : GoError)
    (hfail : doCall ctx provider.c "starknet_addDeclareTransaction" declareTransaction
      = Except.error e) :
    ((AddDeclareTransaction ErrInvalidContractClass doCall provider ctx
        declareTransaction w).1.1 = none) ∧
    ((∃ pre post : String, e.message = pre ++ "Invalid contract class" ++ post) →
      (AddDeclareTransaction ErrInvalidContractClass doCall provider ctx
        declareTransaction w).1 = (none, some ErrInvalidContractClass)) ∧
    ((¬ ∃ pre post : String, e.message = pre ++ "Invalid contract class" ++ post) →
      (AddDeclareTransaction ErrInvalidContractClass doCall provider ctx
        declareTransaction w).1 = (none, some e)) ∧
    ((AddDeclareTransaction ErrInvalidContractClass doCall provider ctx
        declareTransaction w).1 = (none, some ErrInvalidContractClass) ↔
      ((∃ pre post : String, e.message = pre ++ "Invalid contract class" ++ post) ∨
        e = ErrInvalidContractClass)) ∧
    (stringsContains ErrInvalidContractClass.message "Invalid contract class" = true →
      ((AddDeclareTransaction ErrInvalidContractClass doCall provider ctx
          declareTransaction w).1 = (none, some ErrInvalidContractClass) ↔
        ∃ pre post : String, e.message = pre ++ "Invalid contract class" ++ post)) := by
  simp only [← stringsContains_iff]
  unfold AddDeclareTransaction
  rw [hfail]
  by_cases hc : stringsContains e.message "Invalid contract class" = true
  · simp [hc]
  · simp only [hc, Bool.false_eq_true, if_false, false_or, not_false_eq_true, true_and,
      forall_true_left, false_implies, Prod.mk.injEq, Option.some.injEq, iff_false]
    intro hS h
    exact hc (h ▸ hS)

/-- C7, both branches on concrete provider failures: a message with the
category inside it gives the sentinel, the same words in lower case give the
provider's error back. -/
theorem AddDeclareTransaction_failure_witness :
    (AddDeclareTransaction (⟨"Invalid contract class", 50⟩ : GoError)
        ((fun _ _ _ _ => Except.error ⟨"rpc 50: Invalid contract class (abi)", 1⟩) :
          Transport Unit Unit Unit Nat)
        ⟨()⟩ () () ⟨[], []⟩).1 = (none, some ⟨"Invalid contract class", 50⟩) ∧
    (AddDeclareTransaction (⟨"Invalid contract class", 50⟩ : GoError)
        ((fun _ _ _ _ => Except.error ⟨"invalid contract class", 1⟩) :
          Transport Unit Unit Unit Nat)
        ⟨()⟩ () () ⟨[], []⟩).1 = (none, some ⟨"invalid contract class", 1⟩) :=
  ⟨(AddDeclareTransaction_failure ⟨"Invalid contract class", 50⟩
      ((fun _ _ _ _ => Except.error ⟨"rpc 50: Invalid contract class (abi)", 1⟩) :
        Transport Unit Unit Unit Nat)
      ⟨()⟩ () () ⟨[], []⟩ ⟨"rpc 50: Invalid contract class (abi)", 1⟩ rfl).2.1
      ⟨"rpc 50: ", " (abi)", by decide⟩,
   (AddDeclareTransaction_failure ⟨"Invalid contract class", 50⟩
      ((fun _ _ _ _ => Except.error ⟨"invalid contract class", 1⟩) :
        Transport Unit Unit Unit Nat)
      ⟨()⟩ () () ⟨[], []⟩ ⟨"invalid contract class", 1⟩ rfl).2.2.1
      (fun h => absurd ((stringsContains_iff _ _).2 h) (by decide))⟩

/-- C8: when the provider call behind `AddDeployAccountTransaction` fails with
`e`, the response is nil; the error is the sentinel `ErrClassHashNotFound` when
"Class hash not found" occurs anywhere inside the message of `e` (same case),
and `e` itself, unmodified, in every other case.  The sentinel comes back
exactly when the message matches or `e` already is the sentinel; for a sentinel
whose own message is of the category, exactly when the message matches. -/
theorem AddDeployAccountTransaction_failure {Ctx Client P R : Type}
    (ErrClassHashNotFound : GoError) (sprint : P → String)
    (doCall : Transport Ctx Client P R)
    (provider : Provider Client) (ctx : Ctx) (deployAccountTransaction : P) (w : World)
    (e : GoError)
    (hfail : doCall ctx provider.c "starknet_addDeployAccountTransaction"
      deployAccountTransaction = Except.error e) :
    ((AddDeployAccountTransaction ErrClassHashNotFound sprint doCall provider ctx
        deployAccountTransaction w).1.1 = none) ∧
    ((∃ pre post : String, e.message = pre ++ "Class hash not found" ++ post) →
      (AddDeployAccountTransaction ErrClassHashNotFound sprint doCall provider ctx
        deployAccountTransaction w).1 = (none, some ErrClassHashNotFound)) ∧
    ((¬ ∃ pre post : String, e.message = pre ++ "Class hash not found" ++ post) →
      (AddDeployAccountTransaction ErrClassHashNotFound sprint doCall provider ctx
        deployAccountTransaction w).1 = (none, some e)) ∧
    ((AddDeployAccountTransaction ErrClassHashNotFound sprint doCall provider ctx
        deployAccountTransaction w).1 = (none, some ErrClassHashNotFound) ↔
      ((∃ pre post : String, e.message = pre ++ "Class hash not found" ++ post) ∨
        e = ErrClassHashNotFound)) ∧
    (stringsContains ErrClassHashNotFound.message "Class hash not found" = true →
      ((AddDeployAccountTransaction ErrClassHashNotFound sprint doCall provider ctx
          deployAccountTransaction w).1 = (none, some ErrClassHashNotFound) ↔
        ∃ pre post : String, e.message = pre ++ "Class hash not found" ++ post)) := by
  simp only [← stringsContains_iff]
  unfold AddDeployAccountTransaction
  simp only [hfail]
  by_cases hc : stringsContains e.message "Class hash not found" = true
  · simp [hc]
  · simp only [hc, Bool.false_eq_true, if_false, false_or, not_false_eq_true, true_and,
      forall_true_left, false_implies, Prod.mk.injEq, Option.some.injEq, iff_false]
    intro hS h
    exact hc (h ▸ hS)

/-- C8, both branches on concrete provider failures. -/
theorem AddDeployAccountTransaction_failure_witness :
    (AddDeployAccountTransaction (⟨"Class hash not found", 28⟩ : GoError) (fun _ => "tx")
        ((fun _ _ _ _ => Except.error ⟨"28 Class hash not found", 1⟩) :
          Transport Unit Unit Unit Nat)
        ⟨()⟩ () () ⟨[], []⟩).1 = (none, some ⟨"Class hash not found", 28⟩) ∧
    (AddDeployAccountTransaction (⟨"Class hash not found", 28⟩ : GoError) (fun _ => "tx")
        ((fun _ _ _ _ => Except.error ⟨"Invalid contract class", 1⟩) :
          Transport Unit Unit Unit Nat)
        ⟨()⟩ () () ⟨[], []⟩).1 = (none, some ⟨"Invalid contract class", 1⟩) :=
  ⟨(AddDeployAccountTransaction_failure ⟨"Class hash not found", 28⟩ (fun _ => "tx")
      ((fun _ _ _ _ => Except.error ⟨"28 Class hash not found", 1⟩) :
        Transport Unit Unit Unit Nat)
      ⟨()⟩ () () ⟨[], []⟩ ⟨"28 Class hash not found", 1⟩ rfl).2.1
      ⟨"28 ", "", by decide⟩,
   (AddDeployAccountTransaction_failure ⟨"Class hash not found", 28⟩ (fun _ => "tx")
      ((fun _ _ _ _ => Except.error ⟨"Invalid contract class", 1⟩) :
        Transport Unit Unit Unit Nat)
      ⟨()⟩ () () ⟨[], []⟩ ⟨"Invalid contract class", 1⟩ rfl).2.2.1
      (fun h => absurd ((stringsContains_iff _ _).2 h) (by decide))⟩

/-- C9 fails as stated: a provider failure whose message contains "Invalid
contract class" (and one whose message contains "Class hash not found") comes
back from `AddInvokeTransaction` as it is, not as the sentinel. -/
theorem AddInvokeTransaction_reclassifies_counterexample :
    stringsContains "rpc 50: Invalid contract class" "Invalid contract class" = true ∧
    (AddInvokeTransaction
        ((fun _ _ _ _ => Except.error ⟨"rpc 50: Invalid contract class", 1⟩) :
          Transport Unit Unit Unit Nat)
        ⟨()⟩ () () ⟨[], []⟩).1 = (none, some ⟨"rpc 50: Invalid contract class", 1⟩) ∧
    (AddInvokeTransaction
        ((fun _ _ _ _ => Except.error ⟨"rpc 50: Invalid contract class", 1⟩) :
          Transport Unit Unit Unit Nat)
        ⟨()⟩ () () ⟨[], []⟩).1 ≠ (none, some ⟨"Invalid contract class", 50⟩) ∧
    stringsContains "rpc 28: Class hash not found" "Class hash not found" = true ∧
    (AddInvokeTransaction
        ((fun _ _ _ _ => Except.error ⟨"rpc 28: Class hash not found", 1⟩) :
          Transport Unit Unit Unit Nat)
        ⟨()⟩ () () ⟨[], []⟩).1 ≠ (none, some ⟨"Class hash not found", 28⟩) := by
  decide

/-- C9 as amended: when the provider call behind `AddInvokeTransaction` fails
with `e`, the response is nil and the error is `e` itself, unmodified, whatever
its message says; the result does not depend on any sentinel. -/
theorem AddInvokeTransaction_failure {Ctx Client P R : Type}
    (doCall : Transport Ctx Client P R)
    (provider : Provider Client) (ctx : Ctx) (broadcastedInvoke : P) (w : World)
    (e : GoError)
    (hfail : doCall ctx provider.c "starknet_addInvokeTransaction" broadcastedInvoke
      = Except.error e) :
    (AddInvokeTransaction doCall provider ctx broadcastedInvoke w).1 = (none, some e) := by
  unfold AddInvokeTransaction
  rw [hfail]

/-- C9 as amended, on a provider failure of the "Class hash not found"
category. -/
theorem AddInvokeTransaction_failure_witness :
    (AddInvokeTransaction
        ((fun _ _ _ _ => Except.error ⟨"rpc 28: Class hash not found", 1⟩) :
          Transport Unit Unit Unit Nat)
        ⟨()⟩ () () ⟨[], []⟩).1 = (none, some ⟨"rpc 28: Class hash not found", 1⟩) :=
  AddInvokeTransaction_failure
    ((fun _ _ _ _ => Except.error ⟨"rpc 28: Class hash not found", 1⟩) :
      Transport Unit Unit Unit Nat)
    ⟨()⟩ () () ⟨[], []⟩ ⟨"rpc 28: Class hash not found", 1⟩ rfl

/-- C10: `AddDeployTransaction` sends nothing to the provider and prints
nothing; for every provider, context and transaction it returns a non-nil
response holding the zero value together with a non-nil error whose message is
"AddDeployTransaction was removed, UDC should be used instead". -/
theorem AddDeployTransaction_removed {Ctx Client P R : Type} (zero : R)
    (provider : Provider Client) (ctx : Ctx) (deployTransaction : P) (w : World) :
    (AddDeployTransaction zero provider ctx deployTransaction w).2 = w ∧
    (AddDeployTransaction zero provider ctx deployTransaction w).1.1 = some zero ∧
    (AddDeployTransaction zero provider ctx deployTransaction w).1.2 ≠ none ∧
    ∃ err : GoError,
      (AddDeployTransaction zero provider ctx deployTransaction w).1.2 = some err ∧
      err.message = "AddDeployTransaction was removed, UDC should be used instead" := by
  refine ⟨rfl, rfl, by simp [AddDeployTransaction], ⟨_, rfl, rfl⟩⟩

end rpc

namespace account

open felt rpc starknetgo

/-! ## Chain id -/

theorem bytesToInt_foldl_lt (bs : List UInt8) (acc : Nat) :
    bs.foldl (fun acc b => acc * 256 + b.toNat) acc < (acc + 1) * 256 ^ bs.length := by
  induction bs generalizing acc with
  | nil => simp
  | cons b bs ih =>
    have hb : b.toNat < 256 := b.toNat_lt
    have h := ih (acc * 256 + b.toNat)
    have hle : (acc * 256 + b.toNat + 1) * 256 ^ bs.length
        ≤ (acc + 1) * 256 * 256 ^ bs.length :=
      Nat.mul_le_mul_right _ (by omega)
    simp only [List.foldl_cons, List.length_cons, pow_succ]
    calc _ < (acc * 256 + b.toNat + 1) * 256 ^ bs.length := h
      _ ≤ (acc + 1) * 256 * 256 ^ bs.length := hle
      _ = (acc + 1) * (256 ^ bs.length * 256) := by ring

/-- A byte sequence of length `n` spells an integer below `256 ^ n`. -/
theorem bytesToInt_lt (bs : List UInt8) : bytesToInt bs < 256 ^ bs.length := by
  simpa [bytesToInt] using bytesToInt_foldl_lt bs 0

/-- C4: whenever the provider reports a chain identifier, `NewAccount` succeeds
and the account's `ChainId` is the field element of the big-endian integer of
the identifier's bytes: that integer reduced into the field, and the integer
itself for identifiers of up to 31 bytes. -/
theorem NewAccount_ChainId (provider : RpcProvider) (version : Nat) (accountAddress : Felt)
    (publicKey : String) (keystore : MemKeystore) (chainID : String)
    (hok : provider.ChainID = Except.ok chainID) :
    NewAccount provider version accountAddress publicKey keystore =
      Except.ok { provider := provider, version := version, AccountAddress := accountAddress,
                  publicKey := publicKey, ks := keystore,
                  ChainId := bytesToInt (goBytes chainID) % Modulus } ∧
    ((goBytes chainID).length ≤ 31 →
      bytesToInt (goBytes chainID) % Modulus = bytesToInt (goBytes chainID)) := by
  refine ⟨by simp [NewAccount, hok, SetBytes], fun hlen => Nat.mod_eq_of_lt ?_⟩
  have h1 := bytesToInt_lt (goBytes chainID)
  have h2 : 256 ^ (goBytes chainID).length ≤ 256 ^ 31 := Nat.pow_le_pow_right (by norm_num) hlen
  have h3 : 256 ^ 31 < Modulus := by decide
  omega

/-- C4 on the two identifiers of `TestChainId`: "SN_MAIN" gives
0x534e5f4d41494e and "SN_GOERLI" gives 0x534e5f474f45524c49. -/
theorem NewAccount_ChainId_witness :
    (NewAccount ⟨Except.ok "SN_MAIN"⟩ 1 0 "pubkey" NewMemKeystore).map (fun a => a.ChainId)
      = Except.ok 0x534e5f4d41494e ∧
    (NewAccount ⟨Except.ok "SN_GOERLI"⟩ 1 0 "pubkey" NewMemKeystore).map (fun a => a.ChainId)
      = Except.ok 0x534e5f474f45524c49 := by
  constructor
  · rw [(NewAccount_ChainId ⟨Except.ok "SN_MAIN"⟩ 1 0 "pubkey" NewMemKeystore "SN_MAIN" rfl).1]
    exact congrArg Except.ok (by decide)
  · rw [(NewAccount_ChainId ⟨Except.ok "SN_GOERLI"⟩ 1 0 "pubkey" NewMemKeystore "SN_GOERLI"
      rfl).1]
    exact congrArg Except.ok (by decide)

/-! ## Calldata layout -/

/-- The modelled `FmtCalldata2` returns the array `TestFmtCallData` requires
(account_test.go, line 173). -/
theorem FmtCalldata2_TestFmtCallData :
    FmtCalldata2 [TestFmtCallData_fnCall] = TestFmtCallData_expectedCallData := by
  decide

theorem callEntries_length (offset : Nat) (l : List FunctionCall) :
    (callEntries offset l).length = 4 * l.length := by
  induction l generalizing offset with
  | nil => rfl
  | cons tx rest ih => simp [callEntries, ih]; omega

/-- The entry of call `i` among the per-call entries: address, selector, the
data lengths of the calls before it added to `offset`, its own data length. -/
theorem callEntries_entry (offset : Nat) (l : List FunctionCall) (tail : List Felt)
    (i : Nat) (tx : FunctionCall) (hi : l[i]? = some tx) :
    ((callEntries offset l ++ tail).drop (4 * i)).take 4 =
      [tx.ContractAddress, tx.EntryPointSelector,
       offset + ((l.take i).map (fun t => t.Calldata.length)).sum, tx.Calldata.length] := by
  induction l generalizing offset i with
  | nil => simp at hi
  | cons head rest ih =>
    cases i with
    | zero =>
      simp only [List.getElem?_cons_zero, Option.some.injEq] at hi
      subst hi
      simp [callEntries]
    | succ n =>
      simp only [List.getElem?_cons_succ] at hi
      have h4 : 4 * (n + 1) = 4 * n + 4 := by ring
      have hdrop : (callEntries offset (head :: rest) ++ tail).drop (4 * (n + 1)) =
          (callEntries (offset + head.Calldata.length) rest ++ tail).drop (4 * n) := by
        rw [h4]
        rfl
      rw [hdrop, ih (offset + head.Calldata.length) n hi]
      simp only [List.take_succ_cons, List.map_cons, List.sum_cons, Nat.add_assoc]

/-- The pass leaves the entries of the calls, with every data length one more
than the calldata length, after what was written, and the calldata of each
call followed by a zero after what was gathered. -/
theorem fmtCalls_eq (l : List FunctionCall) (callData callArray : List Felt) :
    fmtCalls l callData callArray =
      (callData ++ callEntries callArray.length
          (l.map (fun tx => { tx with Calldata := tx.Calldata ++ [0] })),
       callArray ++ l.flatMap (fun tx => tx.Calldata ++ [0])) := by
  induction l generalizing callData callArray with
  | nil => simp [fmtCalls, callEntries]
  | cons tx rest ih =>
    simp only [fmtCalls, ih, List.map_cons, callEntries, List.flatMap_cons, List.length_append,
      List.length_singleton, List.append_assoc, List.length_cons, List.length_nil]

theorem length_flatMap_data (l : List FunctionCall) :
    (l.flatMap (fun tx => tx.Calldata ++ [0])).length
      = (l.map (fun tx => tx.Calldata.length + 1)).sum := by
  induction l with
  | nil => rfl
  | cons tx rest ih =>
    simp only [List.flatMap_cons, List.length_append, List.length_singleton, List.map_cons,
      List.sum_cons, ih]

/-- C2 fails as stated: for the call of `TestFmtCallData`, with two calldata
elements, `FmtCalldata2` returns the nine-element array of the test, with
length fields 3 and a closing zero, and not the eight-element layout of the
claim, with length fields 2. -/
theorem FmtCalldata2_layout_counterexample :
    FmtCalldata2 [TestFmtCallData_fnCall] = TestFmtCallData_expectedCallData ∧
    FormatCalldata [TestFmtCallData_fnCall] =
      [1, TestFmtCallData_fnCall.ContractAddress, TestFmtCallData_fnCall.EntryPointSelector,
       0, 2, 2, 0x049d36570d4e46f48e99674bd3fcc84644ddd6b96f7c741b1562b82f9e004dc7, 1] ∧
    FmtCalldata2 [TestFmtCallData_fnCall] ≠ FormatCalldata [TestFmtCallData_fnCall] := by
  decide

/-- C2 as amended: for every list of N calls, `FmtCalldata2` returns `[N]`,
then for each call `i` in order the four elements `(contract_address_i,
selector_i, offset_i, len_i)`, where `len_i` is the number of calldata
elements of call `i` plus one and `offset_i` is the sum of `len_j` for
`j < i`, then the sum of all `len_i`, then the calldata elements of every call,
each call's followed by one zero element, concatenated in call order. -/
theorem FmtCalldata2_layout (fnCalls : List FunctionCall) :
    (FmtCalldata2 fnCalls).take 1 = [fnCalls.length] ∧
    (∀ (i : Nat) (tx : FunctionCall), fnCalls[i]? = some tx →
      ((FmtCalldata2 fnCalls).drop (1 + 4 * i)).take 4 =
        [tx.ContractAddress, tx.EntryPointSelector,
         ((fnCalls.take i).map (fun t => t.Calldata.length + 1)).sum,
         tx.Calldata.length + 1]) ∧
    (FmtCalldata2 fnCalls).drop (1 + 4 * fnCalls.length) =
      [(fnCalls.map (fun tx => tx.Calldata.length + 1)).sum]
        ++ fnCalls.flatMap (fun tx => tx.Calldata ++ [0]) := by
  have hout : FmtCalldata2 fnCalls =
      fnCalls.length ::
        (callEntries 0 (fnCalls.map (fun tx => { tx with Calldata := tx.Calldata ++ [0] }))
          ++ ([(fnCalls.map (fun tx => tx.Calldata.length + 1)).sum]
            ++ fnCalls.flatMap (fun tx => tx.Calldata ++ [0]))) := by
    simp only [FmtCalldata2, fmtCalls_eq, length_flatMap_data, List.length_nil,
      List.nil_append, List.singleton_append, List.cons_append, List.append_assoc]
  refine ⟨by rw [hout]; rfl, ?_, ?_⟩
  · intro i tx hi
    have hmap : (fnCalls.map (fun tx => { tx with Calldata := tx.Calldata ++ [0] }))[i]?
        = some { tx with Calldata := tx.Calldata ++ [0] } := by
      simp [List.getElem?_map, hi]
    rw [hout, Nat.add_comm 1 (4 * i), List.drop_succ_cons, callEntries_entry _ _ _ _ _ hmap]
    simp only [← List.map_take, List.map_map, Function.comp_def, List.length_append,
      List.length_singleton, Nat.zero_add]
  · rw [hout, Nat.add_comm 1 (4 * fnCalls.length), List.drop_succ_cons]
    have hlen := callEntries_length 0
      (fnCalls.map (fun tx => { tx with Calldata := tx.Calldata ++ [0] }))
    rw [List.length_map] at hlen
    rw [← hlen, List.drop_left]

/-- C2 as amended, on the call of `TestFmtCallData`: its entry is
`(contract_address, selector, 0, 3)`, and the total 3 is followed by the two
calldata elements and a zero. -/
theorem FmtCalldata2_layout_witness :
    ((FmtCalldata2 [TestFmtCallData_fnCall]).drop 1).take 4 =
      [TestFmtCallData_fnCall.ContractAddress, TestFmtCallData_fnCall.EntryPointSelector,
       0, 3] ∧
    (FmtCalldata2 [TestFmtCallData_fnCall]).drop 5 =
      [3, 0x049d36570d4e46f48e99674bd3fcc84644ddd6b96f7c741b1562b82f9e004dc7, 1, 0] :=
  ⟨(FmtCalldata2_layout [TestFmtCallData_fnCall]).2.1 0 TestFmtCallData_fnCall rfl,
   (FmtCalldata2_layout [TestFmtCallData_fnCall]).2.2⟩

/-- C3 fails as stated: for the call of `TestFmtCallData`, with M = 2 calldata
elements, `FmtCalldata2` returns the nine elements the test requires, not
1 + 4 + 1 + 2. -/
theorem FmtCalldata2_length_counterexample :
    TestFmtCallData_fnCall.Calldata.length = 2 ∧
    FmtCalldata2 [TestFmtCallData_fnCall] = TestFmtCallData_expectedCallData ∧
    (FmtCalldata2 [TestFmtCallData_fnCall]).length = 9 ∧
    (FmtCalldata2 [TestFmtCallData_fnCall]).length
      ≠ 1 + 4 + 1 + TestFmtCallData_fnCall.Calldata.length := by
  decide

/-- C3 as amended: for every single call with M calldata elements,
`FmtCalldata2 [call]` has length exactly 1 + 4 + 1 + (M + 1): the count, the
four elements of the call, the total, the M calldata elements and the closing
zero. -/
theorem FmtCalldata2_single_length (call : FunctionCall) :
    (FmtCalldata2 [call]).length = 1 + 4 + 1 + (call.Calldata.length + 1) := by
  simp [FmtCalldata2, fmtCalls]
  omega

end account

namespace starknetgo

open felt

/-! ## Evaluation order is invisible -/

theorem strict_eq {α : Type} (n : Nat) (f : Nat → α) : strict n f = f n := by
  cases n <;> rfl

theorem strictPoint_eq {α : Type} (p : JPoint) (f : JPoint → α) : strictPoint p f = f p := by
  simp [strictPoint, strict_eq]

theorem strictState_eq {α : Type} (s : SHAState) (k : SHAState → α) : strictState s k = k s := by
  simp [strictState, strict_eq]

/-! ## Constants and test vectors -/

/-- The generator, the shift point and the four Pedersen base points satisfy
the curve equation. -/
theorem constants_onCurve :
    onCurve EcGen = true ∧ onCurve PedersenShift = true ∧ onCurve PedersenP0 = true ∧
    onCurve PedersenP1 = true ∧ onCurve PedersenP2 = true ∧ onCurve PedersenP3 = true := by
  decide

/-- The generator has the order of the group: `Order * G` is the point at
infinity. -/
theorem order_mul_generator : affine (mulAdd infinity Order EcGen) = none := by
  decide!

/-- SHA-256 of "abc" (FIPS 180-4, appendix B.1). -/
theorem sha256_abc :
    sha256 ⟨3, 0x616263⟩ =
      ⟨32, 0xba7816bf8f01cfea414140de5dae2223b00361a396177a9cb410ff61f20015ad⟩ := by
  decide!

/-- The hash of `TestTransactionHash`, "Transaction hash mock": the composition
of §4.4 on the literals of the test is the transaction hash the test expects. -/
theorem TestTransactionHash_vector :
    ComputeHashOnElements
      [0x696e766f6b65, 1,
       0x043784df59268c02b716e20bf77797bd96c68c2f100b2a634e448c35e3ad363e, 0,
       ComputeHashOnElements
         [0x1, 0x049d36570d4e46f48e99674bd3fcc84644ddd6b96f7c741b1562b82f9e004dc7,
          0x83afd3f4caedc6eebf44246fe54e38c95e3179a5ec9ea81740eca5b482d12e, 0x0, 0x3, 0x3,
          0x049d36570d4e46f48e99674bd3fcc84644ddd6b96f7c741b1562b82f9e004dc7, 0x1, 0x0],
       0x574fbde6000, 0x534e5f474f45524c49, 0x2]
      = 0x73cf79c4bfa0c7a41f473c07e1be5ac25faa7c2fdf9edcbd12c1438f40f13d8 := by
  decide!

/-- The hash of `TestTransactionHash`, "Transaction hash testnet": all-zero
fields on SN_GOERLI. -/
theorem TestTransactionHash_vector_testnet :
    ComputeHashOnElements
      [0x696e766f6b65, 1, 0, 0, ComputeHashOnElements [0], 0, 0x534e5f474f45524c49, 0]
      = 0x135c34f53f8b7f59efd450eb689fccd9dd4cfe7f9d9dc4d09954c5653138698 := by
  decide!

/-- The hash of `TestTransactionHash`, "Transaction hash mainnet". -/
theorem TestTransactionHash_vector_mainnet :
    ComputeHashOnElements
      [0x696e766f6b65, 1,
       0x59cd166e363be0a921e42dd5cfca0049aedcf2093a707ef90b5c6e46d4555a8, 0,
       ComputeHashOnElements
         [0x1, 0x5dbdedc203e92749e2e746e2d40a768d966bd243df04a6b712e222bc040a9af,
          0x2f0b3c5710379609eb5495f1ecd348cb28167711b73609fe565a72734550354, 0x0, 0x1, 0x1,
          0x52884ee3f],
       0x2a173cd36e400, 0x534e5f4d41494e, 0x1]
      = 0x3476c76a81522fe52616c41e95d062f5c3ea4eeb6c652904ad389fcd9ff4637 := by
  decide!

/-- The signature of `TestSign`, "Sign testnet - mock". -/
theorem TestSign_vector :
    signLoop 64 0x2a7eec54aab835323a810e893354368a496f1a217e8b6ef295476568ef08f0d
      0x15d0b81e6140f4cce02b47609879a723f9f5b7b9f3ffca346018c73fe81847e 0
      = some (0x6bf7980d98fa300ed9565b8cd5efcf5582133daa961b5e1d9477bf1bd750727,
              0x5886b8236b7dc3665c0014876a644ddd0800a167ff1036fb82af1a6f4134c91) := by
  decide!

/-- The signature of `TestSign`, "Sign testnet - mock 2". -/
theorem TestSign_vector2 :
    signLoop 64 0x73cf79c4bfa0c7a41f473c07e1be5ac25faa7c2fdf9edcbd12c1438f40f13d8
      0x043b7fe9d91942c98cd5fd37579bd99ec74f879c4c79d886633eecae9dad35fa 0
      = some (0x10d405427040655f118bc8b897e2f2f8147858bbcb0e3d6bc6dfbc6d0205e8,
              0x5cdfe4a3d5b63002e9011ec0ba59ae2b75a43cb2a3bc1699b35aa64cb9ca3cf) := by
  decide!

end starknetgo

namespace account

open felt rpc starknetgo

/-! ## The accounts of the tests -/

theorem TestSign_account_eq : TestSign_account = Except.ok TestSign_resolved := rfl

theorem TestTransactionHash_account_eq :
    TestTransactionHash_account = Except.ok TestTransactionHash_resolved := rfl

/-! ## Transaction hash -/

/-- The hash of a sequence is the left-to-right accumulation, from zero, over
the elements followed by their count. -/
theorem ComputeHashOnElements_eq_foldl (elems : List Felt) :
    ComputeHashOnElements elems = (elems ++ [elems.length]).foldl PedersenHash 0 := by
  have h : ∀ (l : List Felt) (acc : Felt), HashElements acc l = l.foldl PedersenHash acc := by
    intro l
    induction l with
    | nil => intro acc; rfl
    | cons e rest ih => intro acc; simp [HashElements, ih]
  exact h _ _

/-- C1: for an account of version 1 whose chain id is `c`, `TransactionHash2`
succeeds on every calldata, nonce, max fee and sender address, and returns
`Hash([P, 1, sender, 0, Hash(calldata), maxFee, c, nonce])`, where `P` is
0x696e766f6b65, the big-endian integer of the bytes of "invoke", and `Hash`
accumulates the elements followed by their count. -/
theorem TransactionHash2_composition (account : Account) (c : Felt)
    (hversion : account.version = 1) (hchain : account.ChainId = c)
    (callData : List Felt) (nonce maxFee accountAddress : Felt) :
    TransactionHash2 account callData nonce maxFee accountAddress =
      Except.ok (ComputeHashOnElements
        [0x696e766f6b65, 1, accountAddress, 0, ComputeHashOnElements callData, maxFee, c,
         nonce]) ∧
    bytesToInt (goBytes "invoke") = 0x696e766f6b65 ∧
    (∀ elems : List Felt,
      ComputeHashOnElements elems = (elems ++ [elems.length]).foldl PedersenHash 0) := by
  have hprefix : SetBytes (goBytes TRANSACTION_PREFIX) = 0x696e766f6b65 := by decide
  refine ⟨?_, by decide, ComputeHashOnElements_eq_foldl⟩
  simp only [TransactionHash2, hprefix, hversion, hchain]

/-- C1 on `TestTransactionHash`, "Transaction hash mock": sender
0x043784df...ad363e, nonce 0x2, max fee 0x574fbde6000, chain id SN_GOERLI and
the nine-element calldata give 0x73cf79c4...f40f13d8. -/
theorem TransactionHash2_composition_witness :
    (TestTransactionHash_account >>= fun account =>
        TransactionHash2 account TestTransactionHash_calldata 0x2 0x574fbde6000
          account.AccountAddress)
      = Except.ok 0x73cf79c4bfa0c7a41f473c07e1be5ac25faa7c2fdf9edcbd12c1438f40f13d8 := by
  have hchain : TestTransactionHash_resolved.ChainId = 0x534e5f474f45524c49 := by decide
  have h := (TransactionHash2_composition TestTransactionHash_resolved 0x534e5f474f45524c49
    rfl hchain TestTransactionHash_calldata 0x2 0x574fbde6000
    0x043784df59268c02b716e20bf77797bd96c68c2f100b2a634e448c35e3ad363e).1
  rw [TestTransactionHash_account_eq]
  simp only [bind, Except.bind]
  exact h.trans (congrArg Except.ok TestTransactionHash_vector)

/-! ## Signature -/

theorem Account.Sign_account (account : Account) (ctx : Context) (msg : Felt) :
    (account.Sign ctx msg).2 = account := by
  unfold Account.Sign
  split <;> rfl

theorem find_filter_ne (keys : List (String × Nat)) (id other : String) (hne : other ≠ id) :
    (keys.filter (fun entry => entry.1 != other)).find? (fun entry => entry.1 == id)
      = keys.find? (fun entry => entry.1 == id) := by
  induction keys with
  | nil => rfl
  | cons entry rest ih =>
    by_cases hid : entry.1 = id
    · have hkeep : ¬ id = other := fun h => hne h.symm
      simp [List.filter_cons, hkeep, List.find?_cons, hid]
    · by_cases hother : entry.1 = other
      · simp [List.filter_cons, hother, List.find?_cons, hne, ih]
      · simp [List.filter_cons, hother, List.find?_cons, hid, ih]

/-- A `Put` under another identifier leaves the key of `id` as it was. -/
theorem MemKeystore.Get_Put_ne (ks : MemKeystore) (id other : String) (k : Nat)
    (hne : other ≠ id) : (ks.Put other k).Get id = ks.Get id := by
  simp only [MemKeystore.Get, MemKeystore.Put, List.find?_cons]
  have hhead : (other == id) = false := by simpa using hne
  simp only [hhead]
  rw [find_filter_ne ks.keys id other hne]

/-- Earlier `Sign` calls, and `Put` calls under other identifiers, leave the
identifier of the account and the key registered under it as they were. -/
theorem Account.afterCalls_key (earlier : List AccountCall) (account : Account)
    (hputs : ∀ id k, AccountCall.put id k ∈ earlier → id ≠ account.publicKey) :
    (account.afterCalls earlier).publicKey = account.publicKey ∧
    (account.afterCalls earlier).ks.Get account.publicKey
      = account.ks.Get account.publicKey := by
  induction earlier generalizing account with
  | nil => exact ⟨rfl, rfl⟩
  | cons call rest ih =>
    have hstep : (account.afterCall call).publicKey = account.publicKey ∧
        (account.afterCall call).ks.Get account.publicKey
          = account.ks.Get account.publicKey := by
      cases call with
      | sign ctx msg => simp [Account.afterCall, Account.Sign_account]
      | put id k =>
        exact ⟨rfl, MemKeystore.Get_Put_ne _ _ _ _ (hputs id k (List.mem_cons_self _ _))⟩
    have hrest := ih (account.afterCall call) (by
      intro id k hmem
      rw [hstep.1]
      exact hputs id k (List.mem_cons_of_mem _ hmem))
    simp only [Account.afterCalls, List.foldl_cons] at hrest ⊢
    rw [hstep.1] at hrest
    exact ⟨hrest.1, hrest.2.trans hstep.2⟩

/-- C5 fails as stated: with the key of `TestSign` registered, `Sign` of the
message hash zero returns the error of an out-of-range hash (§4.6), not a
two-element signature. -/
theorem Sign_zero_hash_counterexample :
    (TestSign_account >>= fun account => pure (account.ks.Get account.publicKey))
      = Except.ok (some 0x15d0b81e6140f4cce02b47609879a723f9f5b7b9f3ffca346018c73fe81847e) ∧
    (TestSign_account >>= fun account => (account.Sign Context.Background 0).1)
      = Except.error ErrInvalidHashRange := by
  have hkey : TestSign_resolved.ks.Get TestSign_resolved.publicKey
      = some 0x15d0b81e6140f4cce02b47609879a723f9f5b7b9f3ffca346018c73fe81847e := by decide
  rw [TestSign_account_eq]
  simp only [bind, Except.bind, pure, Except.pure]
  refine ⟨congrArg Except.ok hkey, ?_⟩
  unfold Account.Sign MemKeystore.Sign
  rw [hkey]
  simp [CurveSign]

/-- C5 as amended: with a private key `k` registered under the account's
identifier, `Sign` of a message hash returns the same result whatever the
context, whatever `Sign` calls came before and whatever keys were put under
other identifiers: the signer's result for the hash and `k`.  That result is
the error of an out-of-range hash when the hash is zero or has more than 251
bits, and in every case either a two-element signature `[r, s]` or an error. -/
theorem Sign_deterministic (account : Account) (k : Nat)
    (hkey : account.ks.Get account.publicKey = some k)
    (earlier : List AccountCall)
    (hputs : ∀ id k', AccountCall.put id k' ∈ earlier → id ≠ account.publicKey)
    (ctx ctx' : Context) (msg : Felt) :
    ((account.afterCalls earlier).Sign ctx msg).1 = (account.Sign ctx' msg).1 ∧
    (account.Sign ctx msg).1 = (CurveSign msg k).map (fun rs => [rs.1, rs.2]) ∧
    ((msg = 0 ∨ 2 ^ 251 ≤ msg) →
      (account.Sign ctx msg).1 = Except.error ErrInvalidHashRange) ∧
    ((∃ r s, (account.Sign ctx msg).1 = Except.ok [r, s]) ∨
      (∃ e, (account.Sign ctx msg).1 = Except.error e)) := by
  have hsign : ∀ (a : Account) (c : Context), a.ks.Get a.publicKey = some k →
      (a.Sign c msg).1 = (CurveSign msg k).map (fun rs => [rs.1, rs.2]) := by
    intro a c ha
    unfold Account.Sign MemKeystore.Sign
    rw [ha]
    dsimp only
    cases CurveSign msg k with
    | error e => rfl
    | ok rs => cases rs; rfl
  have hafter := Account.afterCalls_key earlier account hputs
  have hkey' : (account.afterCalls earlier).ks.Get (account.afterCalls earlier).publicKey
      = some k := by rw [hafter.1, hafter.2, hkey]
  refine ⟨?_, hsign account ctx hkey, ?_, ?_⟩
  · rw [hsign _ ctx hkey', hsign account ctx' hkey]
  · intro hrange
    rw [hsign account ctx hkey]
    unfold CurveSign
    rw [if_pos hrange]
    rfl
  · rw [hsign account ctx hkey]
    cases CurveSign msg k with
    | error e => exact Or.inr ⟨e, rfl⟩
    | ok rs => exact Or.inl ⟨rs.1, rs.2, rfl⟩

/-- C5 as amended, on `TestSign`, "Sign testnet - mock": message
0x2a7eec54...ef08f0d with key 0x15d0b81e...e81847e gives (0x6bf7980d...d750727,
0x5886b823...4134c91), under the background context, and under a cancelled
context after an earlier `Sign` and a `Put` under another identifier. -/
theorem Sign_deterministic_witness :
    (TestSign_account >>= fun account =>
        (account.Sign Context.Background
          0x2a7eec54aab835323a810e893354368a496f1a217e8b6ef295476568ef08f0d).1)
      = Except.ok [0x6bf7980d98fa300ed9565b8cd5efcf5582133daa961b5e1d9477bf1bd750727,
                   0x5886b8236b7dc3665c0014876a644ddd0800a167ff1036fb82af1a6f4134c91] ∧
    (TestSign_account >>= fun account =>
        ((account.afterCalls
            [AccountCall.sign Context.Background 0x1, AccountCall.put "0x1" 0x5]).Sign
          ⟨true, some 0⟩
          0x2a7eec54aab835323a810e893354368a496f1a217e8b6ef295476568ef08f0d).1)
      = Except.ok [0x6bf7980d98fa300ed9565b8cd5efcf5582133daa961b5e1d9477bf1bd750727,
                   0x5886b8236b7dc3665c0014876a644ddd0800a167ff1036fb82af1a6f4134c91] := by
  have hvalue : (CurveSign 0x2a7eec54aab835323a810e893354368a496f1a217e8b6ef295476568ef08f0d
      0x15d0b81e6140f4cce02b47609879a723f9f5b7b9f3ffca346018c73fe81847e).map
        (fun rs => [rs.1, rs.2])
      = Except.ok [0x6bf7980d98fa300ed9565b8cd5efcf5582133daa961b5e1d9477bf1bd750727,
                   0x5886b8236b7dc3665c0014876a644ddd0800a167ff1036fb82af1a6f4134c91] := by
    unfold CurveSign
    rw [if_neg (by decide), if_neg (by decide), TestSign_vector]
    rfl
  have hputs : ∀ id k', AccountCall.put id k' ∈
        [AccountCall.sign Context.Background 0x1, AccountCall.put "0x1" 0x5] →
      id ≠ TestSign_resolved.publicKey := by
    intro id k' h
    simp only [List.mem_cons, List.mem_singleton, AccountCall.put.injEq, false_or,
      List.not_mem_nil, or_false, reduceCtorEq] at h
    obtain ⟨rfl, _⟩ := h
    decide
  have h0 := Sign_deterministic TestSign_resolved
    0x15d0b81e6140f4cce02b47609879a723f9f5b7b9f3ffca346018c73fe81847e (by decide)
    [] (fun _ _ h => absurd h (List.not_mem_nil _)) Context.Background Context.Background
    0x2a7eec54aab835323a810e893354368a496f1a217e8b6ef295476568ef08f0d
  have h1 := Sign_deterministic TestSign_resolved
    0x15d0b81e6140f4cce02b47609879a723f9f5b7b9f3ffca346018c73fe81847e (by decide)
    [AccountCall.sign Context.Background 0x1, AccountCall.put "0x1" 0x5] hputs
    ⟨true, some 0⟩ Context.Background
    0x2a7eec54aab835323a810e893354368a496f1a217e8b6ef295476568ef08f0d
  rw [TestSign_account_eq]
  simp only [bind, Except.bind]
  exact ⟨h0.2.1.trans hvalue, (h1.1.trans h0.2.1).trans hvalue⟩

end account

namespace rpc

/-! ## Response and error of the write endpoints -/

/-- C11: for every input of `AddInvokeTransaction`, `AddDeclareTransaction` and
`AddDeployAccountTransaction`, exactly one of the two results is nil: the
response is nil exactly when the error is non-nil, the error is non-nil
exactly when the provider call failed, and on success the response is the
value the call decoded. -/
theorem write_endpoints_one_result_nil {Ctx Client P R : Type}
    (ErrInvalidContractClass ErrClassHashNotFound : GoError) (sprint : P → String)
    (doCall : Transport Ctx Client P R) (provider : Provider Client) (ctx : Ctx) (tx : P)
    (w : World) :
    Result.followsCall (AddInvokeTransaction doCall provider ctx tx w).1
      (doCall ctx provider.c "starknet_addInvokeTransaction" tx) ∧
    Result.followsCall
      (AddDeclareTransaction ErrInvalidContractClass doCall provider ctx tx w).1
      (doCall ctx provider.c "starknet_addDeclareTransaction" tx) ∧
    Result.followsCall
      (AddDeployAccountTransaction ErrClassHashNotFound sprint doCall provider ctx tx w).1
      (doCall ctx provider.c "starknet_addDeployAccountTransaction" tx) := by
  refine ⟨?_, ?_, ?_⟩
  · unfold AddInvokeTransaction Result.followsCall
    cases doCall ctx provider.c "starknet_addInvokeTransaction" tx with
    | error e => simp
    | ok r => simp
  · unfold AddDeclareTransaction Result.followsCall
    cases doCall ctx provider.c "starknet_addDeclareTransaction" tx with
    | error e =>
      by_cases hc : stringsContains e.message "Invalid contract class" = true <;> simp [hc]
    | ok r => simp
  · unfold AddDeployAccountTransaction Result.followsCall
    cases doCall ctx provider.c "starknet_addDeployAccountTransaction" tx with
    | error e =>
      by_cases hc : stringsContains e.message "Class hash not found" = true <;> simp [hc]
    | ok r => simp

end rpc
